import Mathlib

/-!
Verification development for the status-bar's live-state reconciliation layer.

Each backend driver is embedded as an executable state machine translated from
the Rust source:
* `hyprLine` / `applyRequery` — the Hyprland workspace driver's event-line
  handler and its command-socket resynchronization
  (src/widget/hyprland/workspaces.rs).
* `driverStep` / `wsWidgetStep` — the generic (ext-workspace) compositor
  driver's wayland-thread dispatch and the widget-side fold
  (src/widget/workspaces.rs).
* `pwStep` / `volWidgetStep` — the audio-graph driver's node/metadata
  listeners and the widget-side fold (src/widget/volume.rs).
* `btStep` — the Bluetooth driver's adapter/device event loop
  (src/widget/bluetooth.rs).
* `powerRender`, `hyprRender`, `extWsRender`, `volumeRender`,
  `bluetoothRender`, `powerProfileRender` — the per-widget render functions.

Hash/BTree maps are embedded as association lists with first-key lookup;
machine integers carry explicit range checks where the source parses them.
-/

namespace EucalyptusTwig

/-! ### Association-list helpers (model of HashMap / BTreeMap operations) -/

/-- First-match lookup, the model of map `get`. -/
def alookup {α β : Type} [DecidableEq α] : List (α × β) → α → Option β
  | [], _ => none
  | (k, v) :: rest, a => if k = a then some v else alookup rest a

/-- Replace the value at the first matching key, or append; the model of map
`insert` (which overwrites). -/
def ainsert {α β : Type} [DecidableEq α] : List (α × β) → α → β → List (α × β)
  | [], a, b => [(a, b)]
  | (k, v) :: rest, a, b => if k = a then (a, b) :: rest else (k, v) :: ainsert rest a b

/-- Remove the first entry with the given key; the model of map `remove`. -/
def aerase {α β : Type} [DecidableEq α] : List (α × β) → α → List (α × β)
  | [], _ => []
  | (k, v) :: rest, a => if k = a then rest else (k, v) :: aerase rest a

/-- Modify the value at the first matching key, or append a default; the model
of the `entry(k).and_modify(f).or_insert(d)` pattern. -/
def amodify {α β : Type} [DecidableEq α] : List (α × β) → α → (β → β) → β → List (α × β)
  | [], a, _, d => [(a, d)]
  | (k, v) :: rest, a, f, d => if k = a then (a, f v) :: rest else (k, v) :: amodify rest a f d

theorem alookup_ainsert_self {α β : Type} [DecidableEq α] (l : List (α × β)) (a : α) (b : β) :
    alookup (ainsert l a b) a = some b := by
  induction l with
  | nil => simp [ainsert, alookup]
  | cons p rest ih =>
    obtain ⟨k, v⟩ := p
    by_cases h : k = a <;> simp [ainsert, alookup, h, ih]

theorem alookup_aerase_ne {α β : Type} [DecidableEq α] (l : List (α × β)) (a a' : α)
    (h : a ≠ a') : alookup (aerase l a') a = alookup l a := by
  induction l with
  | nil => simp [aerase]
  | cons p rest ih =>
    obtain ⟨k, v⟩ := p
    by_cases hk : k = a'
    · subst hk
      simp [aerase, alookup, Ne.symm h]
    · by_cases hka : k = a
      · subst hka
        simp [aerase, alookup, hk]
      · simp [aerase, alookup, hk, hka, ih]

theorem alookup_eq_none_of_not_mem {α β : Type} [DecidableEq α] (l : List (α × β)) (a : α)
    (h : a ∉ l.map Prod.fst) : alookup l a = none := by
  induction l with
  | nil => rfl
  | cons p rest ih =>
    obtain ⟨k, v⟩ := p
    simp only [List.map_cons, List.mem_cons] at h
    push_neg at h
    simp [alookup, Ne.symm h.1, ih h.2]

theorem alookup_aerase_self {α β : Type} [DecidableEq α] (l : List (α × β)) (a : α)
    (h : (l.map Prod.fst).Nodup) : alookup (aerase l a) a = none := by
  induction l with
  | nil => rfl
  | cons p rest ih =>
    obtain ⟨k, v⟩ := p
    simp only [List.map_cons, List.nodup_cons] at h
    by_cases hk : k = a
    · subst hk
      simp only [aerase, if_pos rfl]
      exact alookup_eq_none_of_not_mem rest k h.1
    · simp [aerase, alookup, hk, ih h.2]

theorem alookup_ainsert_eq_self {α β : Type} [DecidableEq α] (l : List (α × β)) (a : α) (b : β)
    (h : alookup l a = some b) : ainsert l a b = l := by
  induction l with
  | nil => simp [alookup] at h
  | cons p rest ih =>
    obtain ⟨k, v⟩ := p
    by_cases hk : k = a
    · subst hk
      have hv : v = b := by simpa [alookup] using h
      simp [ainsert, hv]
    · simp only [alookup, if_neg hk] at h
      simp [ainsert, hk, ih h]

theorem ainsert_of_alookup_none {α β : Type} [DecidableEq α] (l : List (α × β)) (a : α) (b : β)
    (h : alookup l a = none) : ainsert l a b = l ++ [(a, b)] := by
  induction l with
  | nil => simp [ainsert]
  | cons p rest ih =>
    obtain ⟨k, v⟩ := p
    by_cases hk : k = a
    · simp [alookup, hk] at h
    · simp only [alookup, if_neg hk] at h
      simp [ainsert, hk, ih h]

/-! ### Hyprland workspace driver (src/widget/hyprland/workspaces.rs)

Event-socket lines are sequences of characters (after the trailing newline has
been stripped, as the read loop does unconditionally). -/

/-- Strip a literal tag from the front of a line, returning the remainder;
the model of slice pattern matching on a literal. -/
def tagRest? : List Char → List Char → Option (List Char)
  | [], s => some s
  | _ :: _, [] => none
  | c :: p, d :: s => if c = d then tagRest? p s else none

/-- Split at the first comma; the model of `split_once` with separator `,`. -/
def splitOnce? : List Char → Option (List Char × List Char)
  | [] => none
  | c :: rest =>
    if c = ',' then some ([], rest)
    else (splitOnce? rest).map fun p => (c :: p.1, p.2)

/-- Decimal digits to a number; fails on an empty list or any non-digit. -/
def digitsToNat? (cs : List Char) : Option Nat :=
  match cs with
  | [] => none
  | _ => cs.foldl (fun acc c =>
      acc.bind fun n => if c.isDigit then some (n * 10 + (c.toNat - 48)) else none) (some 0)

/-- The model of `str::parse::<i64>`: optional sign, ASCII digits, range check
against the i64 bounds. -/
def parseI64 (cs : List Char) : Option Int :=
  match cs with
  | [] => none
  | c :: rest =>
    if c = '+' then
      (digitsToNat? rest).bind fun n => if n ≤ 2 ^ 63 - 1 then some (n : Int) else none
    else if c = '-' then
      (digitsToNat? rest).bind fun n => if n ≤ 2 ^ 63 then some (-(n : Int)) else none
    else
      (digitsToNat? (c :: rest)).bind fun n => if n ≤ 2 ^ 63 - 1 then some (n : Int) else none

/-- The retained field of a Hyprland workspace descriptor. -/
structure WorkspaceInfo where
  name : List Char
deriving DecidableEq, Repr

/-- The Hyprland widget's state (struct `HyprlandWorkspace`). -/
structure HyprState where
  errorMessage : Option String
  workspaces : List (Int × WorkspaceInfo)
  activeWorkspace : Option Int
  activeSpecialWorkspace : Option Int
deriving DecidableEq, Repr

def hyprInit : HyprState :=
  { errorMessage := none, workspaces := [], activeWorkspace := none,
    activeSpecialWorkspace := none }

/-- Whether handling a line also triggers a full re-query of the workspace
list over the command socket (`try_update_with_get_workspace`). -/
inductive HyprEffect
  | silent
  | requery
deriving DecidableEq, Repr

def createTag : List Char := "createworkspacev2>>".toList

def destroyTag : List Char := "destroyworkspacev2>>".toList

def activeTag : List Char := "workspacev2>>".toList

def specialTag : List Char := "activespecialv2>>".toList

/-- Handler for a `createworkspacev2` payload: both the vacant and the
occupied entry branch store the new `WorkspaceInfo` (the occupied branch
logs a warning but still calls `entry.insert`). -/
def hyprCreate (s : HyprState) (rest : List Char) : HyprState × HyprEffect :=
  match splitOnce? rest with
  | some (idStr, name) =>
    match parseI64 idStr with
    | some id => ({ s with workspaces := ainsert s.workspaces id ⟨name⟩ }, .silent)
    | none => (s, .requery)
  | none => (s, .requery)

/-- Handler for a `destroyworkspacev2` payload: the occupied entry is removed
(with a name-mismatch warning only), a vacant id is logged and ignored. -/
def hyprDestroy (s : HyprState) (rest : List Char) : HyprState × HyprEffect :=
  match splitOnce? rest with
  | some (idStr, _) =>
    match parseI64 idStr with
    | some id => ({ s with workspaces := aerase s.workspaces id }, .silent)
    | none => (s, .requery)
  | none => (s, .requery)

/-- Handler for a `workspacev2` payload: empty id clears the active id, an
unparseable id or a missing comma skips the line. -/
def hyprActive (s : HyprState) (rest : List Char) : HyprState × HyprEffect :=
  match splitOnce? rest with
  | some (idStr, _) =>
    if idStr = [] then ({ s with activeWorkspace := none }, .silent)
    else
      match parseI64 idStr with
      | some id => ({ s with activeWorkspace := some id }, .silent)
      | none => (s, .silent)
  | none => (s, .silent)

/-- Handler for an `activespecialv2` payload, shaped like `workspacev2`. -/
def hyprActiveSpecial (s : HyprState) (rest : List Char) : HyprState × HyprEffect :=
  match splitOnce? rest with
  | some (idStr, _) =>
    if idStr = [] then ({ s with activeSpecialWorkspace := none }, .silent)
    else
      match parseI64 idStr with
      | some id => ({ s with activeSpecialWorkspace := some id }, .silent)
      | none => (s, .silent)
  | none => (s, .silent)

/-- One iteration of the event-socket loop body for a single line (newline
already stripped), mirroring the tag dispatch order of the source. -/
def hyprLine (s : HyprState) (line : List Char) : HyprState × HyprEffect :=
  match tagRest? createTag line with
  | some rest => hyprCreate s rest
  | none =>
    match tagRest? destroyTag line with
    | some rest => hyprDestroy s rest
    | none =>
      match tagRest? activeTag line with
      | some rest => hyprActive s rest
      | none =>
        match tagRest? specialTag line with
        | some rest => hyprActiveSpecial s rest
        | none => (s, .silent)

/-- The tail of `try_update_with_get_workspace`: a successful query replaces
the whole map, a failed query stores the error message. -/
def applyRequery (s : HyprState) (result : Except String (List (Int × WorkspaceInfo))) :
    HyprState :=
  match result with
  | .ok ws => { s with workspaces := ws }
  | .error e => { s with errorMessage := some e }

theorem tagRest?_append (p r : List Char) : tagRest? p (p ++ r) = some r := by
  induction p with
  | nil => rfl
  | cons c p ih => simp [tagRest?, ih]

theorem tagRest?_ne_head (c d : Char) (p s : List Char) (h : c ≠ d) :
    tagRest? (c :: p) (d :: s) = none := by
  simp [tagRest?, h]

theorem tagRest?_eq_append {p s r : List Char} (h : tagRest? p s = some r) : s = p ++ r := by
  induction p generalizing s with
  | nil =>
    simp only [tagRest?, Option.some.injEq] at h
    simpa using h
  | cons c p ih =>
    match s with
    | [] => simp [tagRest?] at h
    | d :: s' =>
      by_cases hcd : c = d
      · subst hcd
        simp only [tagRest?, if_pos rfl] at h
        simp [ih h]
      · simp [tagRest?, hcd] at h

theorem splitOnce?_append (l r : List Char) (h : ',' ∉ l) :
    splitOnce? (l ++ ',' :: r) = some (l, r) := by
  induction l with
  | nil => simp [splitOnce?]
  | cons c l ih =>
    simp only [List.mem_cons] at h
    push_neg at h
    simp [splitOnce?, Ne.symm h.1, ih h.2]

theorem digitsToNat?_all_digits {cs : List Char} {n : Nat} (h : digitsToNat? cs = some n) :
    ∀ c ∈ cs, c.isDigit := by
  have key : ∀ (l : List Char) (a : Option Nat) (m : Nat),
      l.foldl (fun acc c =>
        acc.bind fun k => if c.isDigit then some (k * 10 + (c.toNat - 48)) else none) a
        = some m → ∀ c ∈ l, c.isDigit := by
    intro l
    induction l with
    | nil => intro a m _ c hc; simp at hc
    | cons d l ih =>
      intro a m hfold c hc
      by_cases hd : d.isDigit
      · rcases List.mem_cons.mp hc with hcd | hcl
        · subst hcd; exact hd
        · exact ih _ m (by simpa [hd] using hfold) c hcl
      · exfalso
        have : (l.foldl (fun acc c =>
            acc.bind fun k => if c.isDigit then some (k * 10 + (c.toNat - 48)) else none)
            none) = some m := by
          rcases a with _ | k
          · simpa using hfold
          · simpa [hd] using hfold
        have hnone : ∀ (l' : List Char), (l'.foldl (fun acc c =>
            acc.bind fun k => if c.isDigit then some (k * 10 + (c.toNat - 48)) else none)
            (none : Option Nat)) = none := by
          intro l'
          induction l' with
          | nil => rfl
          | cons e l' ih' => simpa using ih'
        rw [hnone] at this
        exact Option.noConfusion this
  match cs with
  | [] => simp [digitsToNat?] at h
  | c :: cs' => exact key (c :: cs') (some 0) n (by simpa [digitsToNat?] using h)

theorem parseI64_no_comma {cs : List Char} {v : Int} (h : parseI64 cs = some v) : ',' ∉ cs := by
  have hdig : ∀ {l : List Char} {n : Nat}, digitsToNat? l = some n → ',' ∉ l := by
    intro l n hl hm
    have := digitsToNat?_all_digits hl ',' hm
    simp [Char.isDigit] at this
  match cs with
  | [] => simp
  | c :: rest =>
    by_cases hplus : c = '+'
    · subst hplus
      intro hmem
      rcases List.mem_cons.mp hmem with hc | hc
      · exact absurd hc (by decide)
      · cases hn : digitsToNat? rest with
        | none => rw [parseI64] at h; simp [hn] at h
        | some n => exact hdig hn hc
    · by_cases hminus : c = '-'
      · subst hminus
        intro hmem
        rcases List.mem_cons.mp hmem with hc | hc
        · exact absurd hc (by decide)
        · cases hn : digitsToNat? rest with
          | none => rw [parseI64] at h; simp [hn] at h
          | some n => exact hdig hn hc
      · cases hn : digitsToNat? (c :: rest) with
        | none => rw [parseI64] at h; simp [hplus, hminus, hn] at h
        | some n => exact hdig hn

theorem hyprLine_create_eq (s : HyprState) (rest : List Char) :
    hyprLine s (createTag ++ rest) = hyprCreate s rest := rfl

theorem hyprLine_destroy_eq (s : HyprState) (rest : List Char) :
    hyprLine s (destroyTag ++ rest) = hyprDestroy s rest := rfl

theorem hyprLine_active_eq (s : HyprState) (rest : List Char) :
    hyprLine s (activeTag ++ rest) = hyprActive s rest := rfl

theorem hyprLine_special_eq (s : HyprState) (rest : List Char) :
    hyprLine s (specialTag ++ rest) = hyprActiveSpecial s rest := rfl

/-- Claim C1, counterexample: feeding `createworkspacev2>>1,a` and then
`createworkspacev2>>1,b` to a fresh Hyprland driver leaves the entry for id 1
with name `b`, not its original name `a` — the colliding create OVERWRITES the
old entry, so "the map entry for that id keeps its original name" is false. -/
theorem hypr_create_collision_keeps_old_false :
    alookup (hyprLine (hyprLine hyprInit "createworkspacev2>>1,a".toList).1
        "createworkspacev2>>1,b".toList).1.workspaces 1 = some ⟨"b".toList⟩ ∧
    ¬ alookup (hyprLine (hyprLine hyprInit "createworkspacev2>>1,a".toList).1
        "createworkspacev2>>1,b".toList).1.workspaces 1 = some ⟨"a".toList⟩ := by
  decide

/-- Claim C1 (amended): when a `createworkspacev2>>id,name` line with a
parseable id arrives, the pair id→name is stored whether or not the id was
already present — on a collision the NEW name overwrites the old entry (a
warning is logged); when the id is absent the pair is inserted. -/
theorem hypr_create_overwrites (s : HyprState) (idCs nameCs : List Char) (id : Int)
    (hid : parseI64 idCs = some id) :
    hyprLine s (createTag ++ (idCs ++ ',' :: nameCs))
      = ({ s with workspaces := ainsert s.workspaces id ⟨nameCs⟩ }, .silent)
    ∧ alookup (ainsert s.workspaces id ⟨nameCs⟩) id = some ⟨nameCs⟩ := by
  have hsplit : splitOnce? (idCs ++ ',' :: nameCs) = some (idCs, nameCs) :=
    splitOnce?_append _ _ (parseI64_no_comma hid)
  refine ⟨?_, alookup_ainsert_self _ _ _⟩
  rw [hyprLine_create_eq]
  simp [hyprCreate, hsplit, hid]

/-- Witness for `hypr_create_overwrites` at a concrete line. -/
theorem hypr_create_overwrites_witness :
    hyprLine hyprInit (createTag ++ ("7".toList ++ ',' :: "x".toList))
      = ({ hyprInit with workspaces := ainsert hyprInit.workspaces 7 ⟨"x".toList⟩ }, .silent)
    ∧ alookup (ainsert hyprInit.workspaces 7 ⟨"x".toList⟩) 7 = some ⟨"x".toList⟩ :=
  hypr_create_overwrites hyprInit "7".toList "x".toList 7 (by decide)

/-- Claim C8: a malformed `createworkspacev2` or `destroyworkspacev2` line
(missing comma or unparseable id) leaves the state unchanged and triggers a
full command-socket re-query, whose successful result replaces the map; a
malformed `workspacev2` or `activespecialv2` line is skipped with no state
change and no re-query. -/
theorem hypr_malformed_line_recovery :
    (∀ (s : HyprState) (rest : List Char), splitOnce? rest = none →
      hyprLine s (createTag ++ rest) = (s, .requery))
  ∧ (∀ (s : HyprState) (idCs nameCs : List Char), ',' ∉ idCs → parseI64 idCs = none →
      hyprLine s (createTag ++ (idCs ++ ',' :: nameCs)) = (s, .requery))
  ∧ (∀ (s : HyprState) (rest : List Char), splitOnce? rest = none →
      hyprLine s (destroyTag ++ rest) = (s, .requery))
  ∧ (∀ (s : HyprState) (idCs nameCs : List Char), ',' ∉ idCs → parseI64 idCs = none →
      hyprLine s (destroyTag ++ (idCs ++ ',' :: nameCs)) = (s, .requery))
  ∧ (∀ (s : HyprState) (rest : List Char), splitOnce? rest = none →
      hyprLine s (activeTag ++ rest) = (s, .silent))
  ∧ (∀ (s : HyprState) (idCs nameCs : List Char), idCs ≠ [] → ',' ∉ idCs →
      parseI64 idCs = none →
      hyprLine s (activeTag ++ (idCs ++ ',' :: nameCs)) = (s, .silent))
  ∧ (∀ (s : HyprState) (rest : List Char), splitOnce? rest = none →
      hyprLine s (specialTag ++ rest) = (s, .silent))
  ∧ (∀ (s : HyprState) (idCs nameCs : List Char), idCs ≠ [] → ',' ∉ idCs →
      parseI64 idCs = none →
      hyprLine s (specialTag ++ (idCs ++ ',' :: nameCs)) = (s, .silent))
  ∧ (∀ (s : HyprState) (ws : List (Int × WorkspaceInfo)),
      applyRequery s (.ok ws) = { s with workspaces := ws }) := by
  refine ⟨?_, ?_, ?_, ?_, ?_, ?_, ?_, ?_, ?_⟩
  · intro s rest hsplit
    rw [hyprLine_create_eq]
    simp [hyprCreate, hsplit]
  · intro s idCs nameCs hc hid
    rw [hyprLine_create_eq]
    simp [hyprCreate, splitOnce?_append _ _ hc, hid]
  · intro s rest hsplit
    rw [hyprLine_destroy_eq]
    simp [hyprDestroy, hsplit]
  · intro s idCs nameCs hc hid
    rw [hyprLine_destroy_eq]
    simp [hyprDestroy, splitOnce?_append _ _ hc, hid]
  · intro s rest hsplit
    rw [hyprLine_active_eq]
    simp [hyprActive, hsplit]
  · intro s idCs nameCs hne hc hid
    rw [hyprLine_active_eq]
    simp [hyprActive, splitOnce?_append _ _ hc, hne, hid]
  · intro s rest hsplit
    rw [hyprLine_special_eq]
    simp [hyprActiveSpecial, hsplit]
  · intro s idCs nameCs hne hc hid
    rw [hyprLine_special_eq]
    simp [hyprActiveSpecial, splitOnce?_append _ _ hc, hne, hid]
  · intro s ws
    rfl

/-- Witness for `hypr_malformed_line_recovery` at concrete malformed lines. -/
theorem hypr_malformed_line_recovery_witness :
    hyprLine hyprInit (createTag ++ "nocomma".toList) = (hyprInit, .requery)
  ∧ hyprLine hyprInit (createTag ++ ("x".toList ++ ',' :: "a".toList)) = (hyprInit, .requery)
  ∧ hyprLine hyprInit (destroyTag ++ "nocomma".toList) = (hyprInit, .requery)
  ∧ hyprLine hyprInit (activeTag ++ ("x".toList ++ ',' :: [])) = (hyprInit, .silent)
  ∧ hyprLine hyprInit (specialTag ++ ("x".toList ++ ',' :: [])) = (hyprInit, .silent)
  ∧ applyRequery hyprInit (.ok [(1, ⟨"a".toList⟩)])
      = { hyprInit with workspaces := [(1, ⟨"a".toList⟩)] } :=
  ⟨hypr_malformed_line_recovery.1 hyprInit "nocomma".toList (by decide),
   hypr_malformed_line_recovery.2.1 hyprInit "x".toList "a".toList (by decide) (by decide),
   hypr_malformed_line_recovery.2.2.1 hyprInit "nocomma".toList (by decide),
   hypr_malformed_line_recovery.2.2.2.2.2.1 hyprInit "x".toList [] (by decide) (by decide)
     (by decide),
   hypr_malformed_line_recovery.2.2.2.2.2.2.2.1 hyprInit "x".toList [] (by decide) (by decide)
     (by decide),
   hypr_malformed_line_recovery.2.2.2.2.2.2.2.2 hyprInit [(1, ⟨"a".toList⟩)]⟩

/-! ### Generic compositor workspace driver (src/widget/workspaces.rs)

Handles are opaque protocol object references, embedded as naturals. State and
capability payloads arrive as wire bitsets (`WEnum`): `into_result` succeeds
exactly when no unknown bit is set (known state bits: active=1, urgent=2,
hidden=4; known capability bits: activate=1, deactivate=2, remove=4,
assign=8). -/

/-- Decode a state bitset; fails when an unknown bit is set. -/
def decodeState (raw : Nat) : Option Nat :=
  if raw < 8 then some raw else none

/-- Decode a capability bitset; fails when an unknown bit is set. -/
def decodeCaps (raw : Nat) : Option Nat :=
  if raw < 16 then some raw else none

/-- Boolean state flags (struct `WorkspaceState`). -/
structure WorkspaceState where
  active : Bool
  urgent : Bool
  hidden : Bool
deriving DecidableEq, Repr

/-- `From<ext_workspace_handle_v1::State> for WorkspaceState`. -/
def toWorkspaceState (bits : Nat) : WorkspaceState :=
  { active := bits.testBit 0, urgent := bits.testBit 1, hidden := bits.testBit 2 }

/-- Boolean capability flags (struct `WorkspaceCapabilities`). -/
structure WorkspaceCapabilities where
  activate : Bool
  deactivate : Bool
  remove : Bool
  assign : Bool
deriving DecidableEq, Repr

/-- `From<ext_workspace_handle_v1::WorkspaceCapabilities>`. -/
def toWorkspaceCapabilities (bits : Nat) : WorkspaceCapabilities :=
  { activate := bits.testBit 0, deactivate := bits.testBit 1,
    remove := bits.testBit 2, assign := bits.testBit 3 }

/-- A committed workspace (struct `Workspace`): name, state and capabilities
are mandatory by construction; id and coordinates stay optional. -/
structure Workspace where
  id : Option String
  name : String
  coordinates : Option (List Nat)
  state : WorkspaceState
  capabilities : WorkspaceCapabilities
deriving DecidableEq, Repr

/-- A partially assembled workspace (struct `PendingWorkspace`); state and
capabilities hold the decoded bitset, as in the source. -/
structure PendingWorkspace where
  id : Option String
  name : Option String
  coordinates : Option (List Nat)
  state : Option Nat
  capabilities : Option Nat
deriving DecidableEq, Repr

/-- `PendingWorkspace::default()`. -/
def PendingWorkspace.init : PendingWorkspace :=
  { id := none, name := none, coordinates := none, state := none, capabilities := none }

/-- Events delivered on an `ext_workspace_handle_v1` object. -/
inductive WsEvent
  | id (s : String)
  | name (s : String)
  | coordinates (c : List Nat)
  | state (raw : Nat)
  | capabilities (raw : Nat)
  | removed
  | other
deriving DecidableEq, Repr

/-- Updates sent from the wayland thread to the widget task (enum `Update`). -/
inductive WsUpdate
  | newWorkspace (h : Nat) (w : Workspace)
  | workspaceEvent (h : Nat) (e : WsEvent)
  | error (msg : String)
deriving DecidableEq, Repr

/-- The wayland thread's accumulator (struct `State`, without the channel and
manager handles). -/
structure DriverState where
  pending : List (Nat × PendingWorkspace)
deriving DecidableEq, Repr

def initDriver : DriverState := { pending := [] }

/-- The commit predicate: the `if let PendingWorkspace { name: Some(..),
state: Some(..), capabilities: Some(..), .. }` pattern. -/
def checkDone (pw : PendingWorkspace) : Option Workspace :=
  match pw.name, pw.state, pw.capabilities with
  | some n, some st, some cp =>
    some { id := pw.id, name := n, coordinates := pw.coordinates,
           state := toWorkspaceState st, capabilities := toWorkspaceCapabilities cp }
  | _, _, _ => none

/-- Apply one handle event to a pending record. `none` models the handler's
early `return` (decode failure or `Removed`), after which the record — already
taken out by `remove_entry` — is never re-inserted. -/
def applyPendingEvent (pw : PendingWorkspace) (e : WsEvent) : Option PendingWorkspace :=
  match e with
  | .id s => some { pw with id := some s }
  | .name s => some { pw with name := some s }
  | .coordinates c => some { pw with coordinates := some c }
  | .state raw => (decodeState raw).map fun v => { pw with state := some v }
  | .capabilities raw => (decodeCaps raw).map fun v => { pw with capabilities := some v }
  | .removed => none
  | .other => some pw

/-- `Dispatch<ExtWorkspaceHandleV1, ()>::event` on the wayland thread. -/
def handleEv (st : DriverState) (h : Nat) (e : WsEvent) : DriverState × List WsUpdate :=
  match alookup st.pending h with
  | some pw =>
    let rest := aerase st.pending h
    match applyPendingEvent pw e with
    | none => (⟨rest⟩, [])
    | some pw' =>
      match checkDone pw' with
      | some w => (⟨rest⟩, [.newWorkspace h w])
      | none => (⟨(h, pw') :: rest⟩, [])
  | none => (st, [.workspaceEvent h e])

/-- Events the wayland thread reacts to: the manager announcing a fresh
workspace handle (which registers a default pending record) and per-handle
events. -/
inductive DriverEvent
  | newHandle (h : Nat)
  | handleEvent (h : Nat) (e : WsEvent)
deriving DecidableEq, Repr

def driverStep (st : DriverState) : DriverEvent → DriverState × List WsUpdate
  | .newHandle h => (⟨(h, PendingWorkspace.init) :: aerase st.pending h⟩, [])
  | .handleEvent h e => handleEv st h e

/-- Run the wayland thread over an event list, concatenating the updates it
sends in order. -/
def driverRun (st : DriverState) : List DriverEvent → DriverState × List WsUpdate
  | [] => (st, [])
  | e :: rest =>
    let r := driverStep st e
    let r' := driverRun r.1 rest
    (r'.1, r.2 ++ r'.2)

/-- The widget's state (struct `Workspaces`). -/
structure WorkspacesWidget where
  errorMessage : Option String
  workspaces : List (Nat × Workspace)
deriving DecidableEq, Repr

def initWorkspacesWidget : WorkspacesWidget := { errorMessage := none, workspaces := [] }

/-- The widget task's fold over received updates (async fn `task`): a
`WorkspaceEvent` for an unknown handle only logs; decode failures drop the
event and keep the committed record untouched. -/
def wsWidgetStep (wst : WorkspacesWidget) (u : WsUpdate) : WorkspacesWidget :=
  match u with
  | .newWorkspace h w => { wst with workspaces := ainsert wst.workspaces h w }
  | .workspaceEvent h e =>
    match alookup wst.workspaces h with
    | none => wst
    | some w =>
      match e with
      | .id s => { wst with workspaces := ainsert wst.workspaces h { w with id := some s } }
      | .name s => { wst with workspaces := ainsert wst.workspaces h { w with name := s } }
      | .coordinates c =>
        { wst with workspaces := ainsert wst.workspaces h { w with coordinates := some c } }
      | .state raw =>
        match decodeState raw with
        | some v =>
          { wst with workspaces :=
              ainsert wst.workspaces h { w with state := toWorkspaceState v } }
        | none => wst
      | .capabilities raw =>
        match decodeCaps raw with
        | some v =>
          { wst with workspaces :=
              ainsert wst.workspaces h { w with capabilities := toWorkspaceCapabilities v } }
        | none => wst
      | .removed => { wst with workspaces := aerase wst.workspaces h }
      | .other => wst
  | .error msg => { wst with errorMessage := some msg }

/-- Count the `NewWorkspace` updates for a given handle. -/
def countNew (h : Nat) (us : List WsUpdate) : Nat :=
  us.countP fun u =>
    match u with
    | .newWorkspace h' _ => h' = h
    | _ => false

/-- A handle event that neither removes the workspace nor fails to decode:
the sequences over which the two-phase commit discipline is stated. -/
def goodEv : WsEvent → Prop
  | .state raw => raw < 8
  | .capabilities raw => raw < 16
  | .removed => False
  | _ => True

def isNameEv : WsEvent → Bool
  | .name _ => true
  | _ => false

def isStateEv : WsEvent → Bool
  | .state _ => true
  | _ => false

def isCapsEv : WsEvent → Bool
  | .capabilities _ => true
  | _ => false

/-- Name, state flags and capability flags have each been observed at least
once in the event list. -/
def obsAll3 (evs : List WsEvent) : Bool :=
  evs.any isNameEv && evs.any isStateEv && evs.any isCapsEv

theorem driverRun_cons (st : DriverState) (ev : DriverEvent) (evs : List DriverEvent) :
    driverRun st (ev :: evs)
      = ((driverRun (driverStep st ev).1 evs).1,
         (driverStep st ev).2 ++ (driverRun (driverStep st ev).1 evs).2) := rfl

theorem countNew_nil (h : Nat) : countNew h [] = 0 := rfl

theorem countNew_append (h : Nat) (us vs : List WsUpdate) :
    countNew h (us ++ vs) = countNew h us + countNew h vs :=
  List.countP_append _ _ _

theorem countNew_wsEvent (h h' : Nat) (e : WsEvent) :
    countNew h [WsUpdate.workspaceEvent h' e] = 0 := by
  simp [countNew]

theorem countNew_newWorkspace_ne (h h' : Nat) (w : Workspace) (hne : h' ≠ h) :
    countNew h [WsUpdate.newWorkspace h' w] = 0 := by
  simp [countNew, hne]

theorem countNew_newWorkspace_self (h : Nat) (w : Workspace) :
    countNew h [WsUpdate.newWorkspace h w] = 1 := by
  simp [countNew]

theorem checkDone_isSome (pw : PendingWorkspace) :
    (checkDone pw).isSome = (pw.name.isSome && pw.state.isSome && pw.capabilities.isSome) := by
  rcases hn : pw.name <;> rcases hs : pw.state <;> rcases hc : pw.capabilities <;>
    simp [checkDone, hn, hs, hc]

theorem applyPendingEvent_good (pw : PendingWorkspace) (e : WsEvent) (hg : goodEv e) :
    ∃ pw', applyPendingEvent pw e = some pw'
      ∧ pw'.name.isSome = (pw.name.isSome || isNameEv e)
      ∧ pw'.state.isSome = (pw.state.isSome || isStateEv e)
      ∧ pw'.capabilities.isSome = (pw.capabilities.isSome || isCapsEv e) := by
  cases e with
  | id s => exact ⟨_, rfl, by simp [isNameEv], by simp [isStateEv], by simp [isCapsEv]⟩
  | name s => exact ⟨_, rfl, by simp [isNameEv], by simp [isStateEv], by simp [isCapsEv]⟩
  | coordinates c => exact ⟨_, rfl, by simp [isNameEv], by simp [isStateEv], by simp [isCapsEv]⟩
  | state raw =>
    have hg' : raw < 8 := hg
    refine ⟨{ pw with state := some raw }, ?_, by simp [isNameEv], by simp [isStateEv],
      by simp [isCapsEv]⟩
    simp [applyPendingEvent, decodeState, hg']
  | capabilities raw =>
    have hg' : raw < 16 := hg
    refine ⟨{ pw with capabilities := some raw }, ?_, by simp [isNameEv], by simp [isStateEv],
      by simp [isCapsEv]⟩
    simp [applyPendingEvent, decodeCaps, hg']
  | removed => exact hg.elim
  | other => exact ⟨_, rfl, by simp [isNameEv], by simp [isStateEv], by simp [isCapsEv]⟩

/-- If a handle is not pending, a run of events for that handle forwards each
of them unchanged and commits nothing. -/
theorem run_not_pending (h : Nat) (evs : List WsEvent) (st : DriverState)
    (hnp : alookup st.pending h = none) :
    driverRun st (evs.map (DriverEvent.handleEvent h))
      = (st, evs.map (WsUpdate.workspaceEvent h)) := by
  induction evs with
  | nil => rfl
  | cons e evs ih =>
    have hstep : driverStep st (.handleEvent h e) = (st, [.workspaceEvent h e]) := by
      simp [driverStep, handleEv, hnp]
    simp [driverRun_cons, hstep, ih]

theorem countNew_wsEvents (h : Nat) (evs : List WsEvent) :
    countNew h (evs.map (WsUpdate.workspaceEvent h)) = 0 := by
  induction evs with
  | nil => rfl
  | cons e evs ih => simp [countNew, List.countP_cons]

/-- Core single-handle commit characterization: starting from a single pending
record that is not yet complete, a run of decodable non-`removed` events for
that handle emits exactly one `NewWorkspace` if the record's gaps in name,
state and capabilities all get observed, and none otherwise. -/
theorem countNew_pending (h : Nat) (evs : List WsEvent) :
    ∀ pw : PendingWorkspace, (∀ e ∈ evs, goodEv e) → checkDone pw = none →
    countNew h (driverRun ⟨[(h, pw)]⟩ (evs.map (DriverEvent.handleEvent h))).2
      = if ((pw.name.isSome || evs.any isNameEv) && (pw.state.isSome || evs.any isStateEv)
            && (pw.capabilities.isSome || evs.any isCapsEv)) then 1 else 0 := by
  induction evs with
  | nil =>
    intro pw _ hdone
    have hfalse : (pw.name.isSome && pw.state.isSome && pw.capabilities.isSome) = false := by
      have := checkDone_isSome pw
      rw [hdone] at this
      simpa using this.symm
    simp [driverRun, countNew_nil, List.any_nil, hfalse]
  | cons e evs ih =>
    intro pw hgood hdone
    obtain ⟨pw', happly, hn, hs, hc⟩ := applyPendingEvent_good pw e (hgood e (by simp))
    have hlook : alookup [(h, pw)] h = some pw := by simp [alookup]
    have herase : aerase [(h, pw)] h = [] := by simp [aerase]
    cases hdone' : checkDone pw' with
    | none =>
      have hstep : driverStep ⟨[(h, pw)]⟩ (.handleEvent h e) = (⟨[(h, pw')]⟩, []) := by
        simp [driverStep, handleEv, hlook, happly, hdone', herase]
      have hrec := ih pw' (fun e' he' => hgood e' (by simp [he'])) hdone'
      rw [List.map_cons, driverRun_cons, hstep]
      simp only [countNew_append, countNew_nil, Nat.zero_add]
      have hcond : ((pw'.name.isSome || evs.any isNameEv)
            && (pw'.state.isSome || evs.any isStateEv)
            && (pw'.capabilities.isSome || evs.any isCapsEv))
          = ((pw.name.isSome || (e :: evs).any isNameEv)
            && (pw.state.isSome || (e :: evs).any isStateEv)
            && (pw.capabilities.isSome || (e :: evs).any isCapsEv)) := by
        simp [hn, hs, hc, List.any_cons, Bool.or_assoc]
      rw [hrec, hcond]
    | some w =>
      have hstep : driverStep ⟨[(h, pw)]⟩ (.handleEvent h e)
          = (⟨[]⟩, [.newWorkspace h w]) := by
        simp [driverStep, handleEv, hlook, happly, hdone', herase]
      have hempty : alookup ([] : List (Nat × PendingWorkspace)) h = none := rfl
      have hrun := run_not_pending h evs ⟨[]⟩ hempty
      rw [List.map_cons, driverRun_cons, hstep, hrun]
      simp only [countNew_append, countNew_newWorkspace_self, countNew_wsEvents]
      have hall : (pw'.name.isSome && pw'.state.isSome && pw'.capabilities.isSome) = true := by
        have := checkDone_isSome pw'
        rw [hdone'] at this
        simpa using this.symm
      simp only [Bool.and_eq_true] at hall
      obtain ⟨⟨h1, h2⟩, h3⟩ := hall
      have h1' := hn.symm.trans h1
      have h2' := hs.symm.trans h2
      have h3' := hc.symm.trans h3
      have hcond : ((pw.name.isSome || (e :: evs).any isNameEv)
            && (pw.state.isSome || (e :: evs).any isStateEv)
            && (pw.capabilities.isSome || (e :: evs).any isCapsEv)) = true := by
        simp only [List.any_cons, Bool.and_eq_true, Bool.or_eq_true] at h1' h2' h3' ⊢
        exact ⟨⟨by tauto, by tauto⟩, by tauto⟩
      rw [if_pos hcond]

/-- Claim C2, counterexample: the handle is announced and then receives name,
state, a capabilities bitset with an unknown bit (16), and a well-formed
capabilities bitset. After the last event, name, state flags and capability
flags have each been observed, yet no `NewWorkspace` is ever emitted — the
decode failure silently dropped the pending record, so the commit does not
fire at the first event after which all three have been observed. -/
theorem ws_commit_after_all_observed_false :
    countNew 0 (driverRun initDriver
      [.newHandle 0, .handleEvent 0 (.name "a"), .handleEvent 0 (.state 1),
       .handleEvent 0 (.capabilities 16), .handleEvent 0 (.capabilities 1)]).2 = 0
  ∧ obsAll3 [.name "a", .state 1, .capabilities 16, .capabilities 1] = true := by
  decide

/-- Claim C2 (amended): over event sequences for a handle that contain no
`Removed` event and whose state/capability bitsets all decode, the driver
emits a `NewWorkspace` for that handle exactly once by the end of any prefix
in which name, state flags and capability flags have each been observed, and
never otherwise — id and coordinate events do not gate the commit. Since a
committed `Workspace` carries name, state and capabilities as mandatory
fields, no workspace missing one of them is ever sent to the widget. -/
theorem ws_commit_exactly_first_complete (h : Nat) (evs : List WsEvent) (k : Nat)
    (hgood : ∀ e ∈ evs, goodEv e) :
    countNew h (driverRun initDriver
        (DriverEvent.newHandle h :: (evs.take k).map (DriverEvent.handleEvent h))).2
      = if obsAll3 (evs.take k) then 1 else 0 := by
  have hstep : driverStep initDriver (.newHandle h)
      = (⟨[(h, PendingWorkspace.init)]⟩, []) := rfl
  rw [driverRun_cons, hstep]
  simp only [countNew_append, countNew_nil, Nat.zero_add]
  have hrec := countNew_pending h (evs.take k) PendingWorkspace.init
      (fun e he => hgood e (List.take_subset _ _ he)) rfl
  rw [hrec]
  simp [PendingWorkspace.init, obsAll3]

/-- Witness for `ws_commit_exactly_first_complete`: by the third event of
name/state/capabilities exactly one workspace is committed. -/
theorem ws_commit_exactly_first_complete_witness :
    countNew 0 (driverRun initDriver
        (DriverEvent.newHandle 0 :: (([WsEvent.name "a", WsEvent.state 1,
            WsEvent.capabilities 1].take 3).map (DriverEvent.handleEvent 0)))).2
      = if obsAll3 ([WsEvent.name "a", WsEvent.state 1, WsEvent.capabilities 1].take 3)
        then 1 else 0 :=
  ws_commit_exactly_first_complete 0 [WsEvent.name "a", WsEvent.state 1,
    WsEvent.capabilities 1] 3 (by
      intro e he
      fin_cases he <;> simp [goodEv])

/-- If a handle is absent from the pending map and never re-announced, no run
of driver events commits a workspace for it or makes it pending again. -/
theorem countNew_absent_run (h : Nat) (evs : List DriverEvent) :
    ∀ st : DriverState, alookup st.pending h = none →
    DriverEvent.newHandle h ∉ evs →
    countNew h (driverRun st evs).2 = 0
    ∧ alookup ((driverRun st evs).1).pending h = none := by
  induction evs with
  | nil => exact fun st hnp _ => ⟨rfl, hnp⟩
  | cons ev evs ih =>
    intro st hnp hmem
    have hmem' : DriverEvent.newHandle h ∉ evs := fun hh => hmem (List.mem_cons_of_mem _ hh)
    rw [driverRun_cons]
    cases ev with
    | newHandle h' =>
      have hne : h' ≠ h := by
        intro hh
        subst hh
        exact hmem (List.mem_cons_self _ _)
      have hstep : driverStep st (.newHandle h')
          = (⟨(h', PendingWorkspace.init) :: aerase st.pending h'⟩, []) := rfl
      have hnp' : alookup ((h', PendingWorkspace.init) :: aerase st.pending h') h = none := by
        rw [alookup, if_neg hne, alookup_aerase_ne _ h h' (Ne.symm hne)]
        exact hnp
      obtain ⟨hcount, hlook⟩ := ih _ hnp' hmem'
      rw [hstep]
      simpa [countNew_append, countNew_nil] using ⟨hcount, hlook⟩
    | handleEvent h' e =>
      by_cases hh : h' = h
      · subst hh
        have hstep : driverStep st (.handleEvent h' e) = (st, [.workspaceEvent h' e]) := by
          simp [driverStep, handleEv, hnp]
        obtain ⟨hcount, hlook⟩ := ih st hnp hmem'
        rw [hstep]
        simpa [countNew_append, countNew_wsEvent] using ⟨hcount, hlook⟩
      · cases hl : alookup st.pending h' with
        | none =>
          have hstep : driverStep st (.handleEvent h' e) = (st, [.workspaceEvent h' e]) := by
            simp [driverStep, handleEv, hl]
          obtain ⟨hcount, hlook⟩ := ih st hnp hmem'
          rw [hstep]
          simpa [countNew_append, countNew_wsEvent] using ⟨hcount, hlook⟩
        | some pw =>
          have hnp'' : alookup (aerase st.pending h') h = none := by
            rw [alookup_aerase_ne _ h h' (fun hhh => hh (hhh.symm))]
            exact hnp
          cases ha : applyPendingEvent pw e with
          | none =>
            have hstep : driverStep st (.handleEvent h' e) = (⟨aerase st.pending h'⟩, []) := by
              simp [driverStep, handleEv, hl, ha]
            obtain ⟨hcount, hlook⟩ := ih _ hnp'' hmem'
            rw [hstep]
            simpa [countNew_append, countNew_nil] using ⟨hcount, hlook⟩
          | some pw' =>
            cases hd : checkDone pw' with
            | some w =>
              have hstep : driverStep st (.handleEvent h' e)
                  = (⟨aerase st.pending h'⟩, [.newWorkspace h' w]) := by
                simp [driverStep, handleEv, hl, ha, hd]
              obtain ⟨hcount, hlook⟩ := ih _ hnp'' hmem'
              rw [hstep]
              refine ⟨?_, hlook⟩
              rw [countNew_append, countNew_newWorkspace_ne h h' w hh, hcount]
            | none =>
              have hstep : driverStep st (.handleEvent h' e)
                  = (⟨(h', pw') :: aerase st.pending h'⟩, []) := by
                simp [driverStep, handleEv, hl, ha, hd]
              have hnp3 : alookup ((h', pw') :: aerase st.pending h') h = none := by
                rw [alookup, if_neg hh]
                exact hnp''
              obtain ⟨hcount, hlook⟩ := ih _ hnp3 hmem'
              rw [hstep]
              simpa [countNew_append, countNew_nil] using ⟨hcount, hlook⟩

/-- Claim C3: a `Removed` event for a handle whose record is still pending
emits nothing and discards the pending record, and — as long as the manager
does not announce the same handle again — no later run of events ever commits
a workspace for that handle. -/
theorem ws_removed_pending_discarded (st : DriverState) (h : Nat)
    (pw : PendingWorkspace) (evs : List DriverEvent)
    (hp : alookup st.pending h = some pw)
    (hnodup : (st.pending.map Prod.fst).Nodup)
    (hnh : DriverEvent.newHandle h ∉ evs) :
    (driverStep st (.handleEvent h .removed)).2 = []
    ∧ alookup ((driverStep st (.handleEvent h .removed)).1).pending h = none
    ∧ countNew h (driverRun (driverStep st (.handleEvent h .removed)).1 evs).2 = 0 := by
  have hstep : driverStep st (.handleEvent h .removed) = (⟨aerase st.pending h⟩, []) := by
    simp [driverStep, handleEv, hp, applyPendingEvent]
  have hgone : alookup (aerase st.pending h) h = none := alookup_aerase_self _ _ hnodup
  refine ⟨by rw [hstep], by rw [hstep]; exact hgone, ?_⟩
  rw [hstep]
  exact (countNew_absent_run h evs ⟨aerase st.pending h⟩ hgone hnh).1

/-- Witness for `ws_removed_pending_discarded` at a concrete pending handle. -/
theorem ws_removed_pending_discarded_witness :
    (driverStep ⟨[(0, PendingWorkspace.init)]⟩ (.handleEvent 0 .removed)).2 = []
    ∧ alookup ((driverStep ⟨[(0, PendingWorkspace.init)]⟩
        (.handleEvent 0 .removed)).1).pending 0 = none
    ∧ countNew 0 (driverRun (driverStep ⟨[(0, PendingWorkspace.init)]⟩
        (.handleEvent 0 .removed)).1
        [.handleEvent 0 (.name "a"), .handleEvent 0 (.state 1),
         .handleEvent 0 (.capabilities 1)]).2 = 0 :=
  ws_removed_pending_discarded ⟨[(0, PendingWorkspace.init)]⟩ 0 PendingWorkspace.init
    [.handleEvent 0 (.name "a"), .handleEvent 0 (.state 1), .handleEvent 0 (.capabilities 1)]
    (by decide) (by decide) (by decide)

/-- Claim C4, counterexample: a pending record that has already accumulated a
name is REMOVED from the pending map by a state event whose bitset fails to
decode (unknown bit 8) — the prior driver state is not retained for that
handle, contradicting "the pending record with its previously accumulated
fields remains in the pending map". -/
theorem ws_decode_failure_drops_pending_example :
    alookup ((driverRun initDriver
        [.newHandle 0, .handleEvent 0 (.name "a")]).1).pending 0
      = some { PendingWorkspace.init with name := some "a" }
    ∧ alookup ((driverRun initDriver
        [.newHandle 0, .handleEvent 0 (.name "a"), .handleEvent 0 (.state 9)]).1).pending 0
      = none := by
  decide

/-- Claim C4 (amended): a state/capabilities bitset that fails to decode is
non-fatal and the event is dropped; for a committed workspace the widget
state — in particular its previous flags — is fully retained, but for a
handle still pending the driver also removes the pending record from the
pending map, losing its accumulated fields. -/
theorem ws_decode_failure_effects :
    (∀ (wst : WorkspacesWidget) (h raw : Nat), 8 ≤ raw →
      wsWidgetStep wst (.workspaceEvent h (.state raw)) = wst)
  ∧ (∀ (wst : WorkspacesWidget) (h raw : Nat), 16 ≤ raw →
      wsWidgetStep wst (.workspaceEvent h (.capabilities raw)) = wst)
  ∧ (∀ (st : DriverState) (h raw : Nat) (pw : PendingWorkspace), 8 ≤ raw →
      alookup st.pending h = some pw →
      driverStep st (.handleEvent h (.state raw)) = (⟨aerase st.pending h⟩, []))
  ∧ (∀ (st : DriverState) (h raw : Nat) (pw : PendingWorkspace), 16 ≤ raw →
      alookup st.pending h = some pw →
      driverStep st (.handleEvent h (.capabilities raw)) = (⟨aerase st.pending h⟩, [])) := by
  refine ⟨?_, ?_, ?_, ?_⟩
  · intro wst h raw hraw
    have hdec : decodeState raw = none := by simp [decodeState, Nat.not_lt.mpr hraw]
    cases hl : alookup wst.workspaces h with
    | none => simp [wsWidgetStep, hl]
    | some w => simp [wsWidgetStep, hl, hdec]
  · intro wst h raw hraw
    have hdec : decodeCaps raw = none := by simp [decodeCaps, Nat.not_lt.mpr hraw]
    cases hl : alookup wst.workspaces h with
    | none => simp [wsWidgetStep, hl]
    | some w => simp [wsWidgetStep, hl, hdec]
  · intro st h raw pw hraw hp
    have hdec : decodeState raw = none := by simp [decodeState, Nat.not_lt.mpr hraw]
    simp [driverStep, handleEv, hp, applyPendingEvent, hdec]
  · intro st h raw pw hraw hp
    have hdec : decodeCaps raw = none := by simp [decodeCaps, Nat.not_lt.mpr hraw]
    simp [driverStep, handleEv, hp, applyPendingEvent, hdec]

/-- Witness for `ws_decode_failure_effects` at concrete states. -/
theorem ws_decode_failure_effects_witness :
    wsWidgetStep initWorkspacesWidget (.workspaceEvent 0 (.state 9)) = initWorkspacesWidget
  ∧ wsWidgetStep initWorkspacesWidget (.workspaceEvent 0 (.capabilities 16))
      = initWorkspacesWidget
  ∧ driverStep ⟨[(0, PendingWorkspace.init)]⟩ (.handleEvent 0 (.state 9))
      = (⟨aerase [(0, PendingWorkspace.init)] 0⟩, [])
  ∧ driverStep ⟨[(0, PendingWorkspace.init)]⟩ (.handleEvent 0 (.capabilities 16))
      = (⟨aerase [(0, PendingWorkspace.init)] 0⟩, []) :=
  ⟨ws_decode_failure_effects.1 initWorkspacesWidget 0 9 (by decide),
   ws_decode_failure_effects.2.1 initWorkspacesWidget 0 16 (by decide),
   ws_decode_failure_effects.2.2.1 ⟨[(0, PendingWorkspace.init)]⟩ 0 9
     PendingWorkspace.init (by decide) (by decide),
   ws_decode_failure_effects.2.2.2 ⟨[(0, PendingWorkspace.init)]⟩ 0 16
     PendingWorkspace.init (by decide) (by decide)⟩

/-! ### Audio graph driver (src/widget/volume.rs)

Channel volumes are modelled over `Int` (the f32 arithmetic of the source is
order-isomorphic on the values the claims range over; only `max` and equality
are used). JSON payloads of the `default.audio.sink` metadata key are
modelled by a small JSON value type; `serde_json` deserialization into
`DefaultAudioSink { name: String }` succeeds on an object whose `name` field
is a string. -/

/-- A JSON value. -/
inductive Json
  | null
  | bool (b : Bool)
  | num (n : Int)
  | str (s : String)
  | arr (xs : List Json)
  | obj (fields : List (String × Json))

/-- First field with the given key. -/
def jsonField : List (String × Json) → String → Option Json
  | [], _ => none
  | (k, v) :: rest, key => if k = key then some v else jsonField rest key

/-- `serde_json::from_str::<DefaultAudioSink>` on an already-parsed value:
requires an object with a string `name` field. -/
def parseDefaultAudioSink : Json → Option String
  | .obj fields =>
    match jsonField fields "name" with
    | some (.str s) => some s
    | _ => none
  | _ => none

/-- `channel_volumes.into_iter().reduce(max)`: none on an empty array. -/
def reduceMax : List Int → Option Int
  | [] => none
  | v :: vs => some (vs.foldl max v)

/-- The pipewire thread's private state: the per-node cache
`volumes : HashMap<String, (Option<bool>, Option<f32>)>` and the default-sink
pointer. -/
structure PwState where
  volumes : List (String × (Option Bool × Option Int))
  defaultSinkName : Option String
deriving Repr

def pwInit : PwState := { volumes := [], defaultSinkName := none }

/-- Updates sent from the pipewire thread to the widget task (enum `Update`). -/
inductive VolUpdate
  | volume (v : Option Int)
  | mute (m : Option Bool)
  | errorMessage (e : String)
deriving DecidableEq, Repr

/-- Events the pipewire thread reacts to.  A `nodeProps` event carries the
optional `channelVolumes` property (inner `none` models a payload that fails
to deserialize as an f32 array) and the optional `mute` property (inner
`none` models a payload that is not a bool); a Props pod that is not an
object behaves as both properties absent.  A `metaProperty` event carries the
key/type/value triple of the metadata listener. -/
inductive PwEvent
  | nodeProps (nodeName : String) (chanVols : Option (Option (List Int)))
      (muteProp : Option (Option Bool))
  | metaProperty (key : Option String) (ty : Option String) (value : Option Json)

/-- `node_listener` for a Props param: the channel-volume array is reduced to
its peak, forwarded only when the node is the current default, and cached;
then the mute flag likewise. -/
def pwNodeProps (s : PwState) (nodeName : String) (cv : Option (Option (List Int)))
    (mp : Option (Option Bool)) : PwState × List VolUpdate :=
  let r1 :=
    match cv with
    | some (some cvs) =>
      let volume := reduceMax cvs
      let out := if s.defaultSinkName = some nodeName then [VolUpdate.volume volume] else []
      let vols := amodify s.volumes nodeName (fun p => (p.1, volume)) (none, volume)
      ({ s with volumes := vols }, out)
    | _ => (s, [])
  match mp with
  | some (some m) =>
    let out := if r1.1.defaultSinkName = some nodeName then [VolUpdate.mute (some m)] else []
    let vols := amodify r1.1.volumes nodeName (fun p => (some m, p.2)) (some m, none)
    ({ r1.1 with volumes := vols }, r1.2 ++ out)
  | _ => r1

/-- `metadata_listener`, with the source's match-arm order: a well-formed
`default.audio.sink` JSON update forwards the named node's cached mute and
volume (unknown/unknown when unseen) and then moves the default pointer; a
cleared key or null subject clears the pointer; anything else is ignored. -/
def pwMeta (s : PwState) (key ty : Option String) (value : Option Json) :
    PwState × List VolUpdate :=
  match key, ty, value with
  | some "default.audio.sink", some "Spa:String:JSON", some v =>
    match parseDefaultAudioSink v with
    | some name =>
      let mv := (alookup s.volumes name).getD (none, none)
      ({ s with defaultSinkName := some name },
       [VolUpdate.mute mv.1, VolUpdate.volume mv.2])
    | none => (s, [])
  | some "default.audio.sink", _, none => ({ s with defaultSinkName := none }, [])
  | none, _, _ => ({ s with defaultSinkName := none }, [])
  | some "default.audio.sink", _, _ => (s, [])
  | _, _, _ => (s, [])

/-- One pipewire-thread event. -/
def pwStep (s : PwState) : PwEvent → PwState × List VolUpdate
  | .nodeProps nodeName cv mp => pwNodeProps s nodeName cv mp
  | .metaProperty key ty value => pwMeta s key ty value

/-- Run the pipewire thread over an event list, concatenating sent updates. -/
def pwRun (s : PwState) : List PwEvent → PwState × List VolUpdate
  | [] => (s, [])
  | e :: rest =>
    let r := pwStep s e
    let r' := pwRun r.1 rest
    (r'.1, r.2 ++ r'.2)

/-- The volume widget's state (struct `Volume`). -/
structure Volume where
  errorMessage : Option String
  mute : Option Bool
  volume : Option Int
deriving DecidableEq, Repr

def volumeInit : Volume := { errorMessage := none, mute := none, volume := none }

/-- The widget task's fold over received updates (async fn `task`). -/
def volWidgetStep (w : Volume) : VolUpdate → Volume
  | .volume v => { w with volume := v }
  | .mute m => { w with mute := m }
  | .errorMessage e => { w with errorMessage := some e }

def volWidgetRun (w : Volume) (us : List VolUpdate) : Volume :=
  us.foldl volWidgetStep w

/-- Claim C5: a well-formed `default.audio.sink` metadata update naming node
N forwards N's cached mute then volume (None/None when N has not been seen),
sets the default pointer to N while leaving the cache untouched, and the
widget state after folding those updates shows exactly N's cached values. -/
theorem pw_default_switch_forwards_cache (s : PwState) (w : Volume) (v : Json) (name : String)
    (hparse : parseDefaultAudioSink v = some name) :
    pwStep s (.metaProperty (some "default.audio.sink") (some "Spa:String:JSON") (some v))
      = ({ s with defaultSinkName := some name },
         [VolUpdate.mute ((alookup s.volumes name).getD (none, none)).1,
          VolUpdate.volume ((alookup s.volumes name).getD (none, none)).2])
    ∧ volWidgetRun w (pwStep s (.metaProperty (some "default.audio.sink")
        (some "Spa:String:JSON") (some v))).2
      = { w with mute := ((alookup s.volumes name).getD (none, none)).1,
                 volume := ((alookup s.volumes name).getD (none, none)).2 } := by
  have hstep : pwStep s (.metaProperty (some "default.audio.sink")
      (some "Spa:String:JSON") (some v))
      = ({ s with defaultSinkName := some name },
         [VolUpdate.mute ((alookup s.volumes name).getD (none, none)).1,
          VolUpdate.volume ((alookup s.volumes name).getD (none, none)).2]) := by
    simp [pwStep, pwMeta, hparse]
  refine ⟨hstep, ?_⟩
  rw [hstep]
  rfl

/-- A concrete pipewire state with one cached node, used by the witness of
`pw_default_switch_forwards_cache`. -/
def pwExample : PwState :=
  { volumes := [("sinkA", (some true, some 3))], defaultSinkName := some "sinkB" }

/-- Witness for `pw_default_switch_forwards_cache`: switching to a cached
node surfaces its cached values. -/
theorem pw_default_switch_forwards_cache_witness :
    pwStep pwExample (.metaProperty (some "default.audio.sink") (some "Spa:String:JSON")
          (some (.obj [("name", .str "sinkA")])))
      = ({ pwExample with defaultSinkName := some "sinkA" },
         [VolUpdate.mute (some true), VolUpdate.volume (some 3)])
    ∧ volWidgetRun volumeInit (pwStep pwExample
        (.metaProperty (some "default.audio.sink") (some "Spa:String:JSON")
          (some (.obj [("name", .str "sinkA")])))).2
      = { volumeInit with mute := some true, volume := some 3 } := by
  have h := pw_default_switch_forwards_cache pwExample
    volumeInit (.obj [("name", .str "sinkA")]) "sinkA" (by rfl)
  simpa [pwExample, alookup] using h

/-- Claim C6: a `default.audio.sink` metadata update whose value fails to
parse as `{"name": ..}` sends nothing and leaves the whole pipewire state —
default pointer and cache — unchanged, for any payload type tag. -/
theorem pw_malformed_default_ignored (s : PwState) (ty : Option String) (v : Json)
    (hparse : parseDefaultAudioSink v = none) :
    pwStep s (.metaProperty (some "default.audio.sink") ty (some v)) = (s, [])
    ∧ ∀ w : Volume, volWidgetRun w (pwStep s (.metaProperty (some "default.audio.sink")
        ty (some v))).2 = w := by
  have hstep : pwStep s (.metaProperty (some "default.audio.sink") ty (some v)) = (s, []) := by
    match ty with
    | some "Spa:String:JSON" => simp [pwStep, pwMeta, hparse]
    | none => rfl
    | some t =>
      by_cases ht : t = "Spa:String:JSON"
      · subst ht
        simp [pwStep, pwMeta, hparse]
      · simp [pwStep, pwMeta, ht]
  exact ⟨hstep, fun w => by rw [hstep]; rfl⟩

/-- Witness for `pw_malformed_default_ignored`: an object without a `name`
string changes nothing. -/
theorem pw_malformed_default_ignored_witness :
    pwStep pwInit (.metaProperty (some "default.audio.sink") (some "Spa:String:JSON")
        (some (.obj [("other", .num 1)]))) = (pwInit, [])
    ∧ ∀ w : Volume, volWidgetRun w (pwStep pwInit (.metaProperty (some "default.audio.sink")
        (some "Spa:String:JSON") (some (.obj [("other", .num 1)])))).2 = w :=
  pw_malformed_default_ignored pwInit (some "Spa:String:JSON") (.obj [("other", .num 1)])
    (by rfl)

/-! ### Bluetooth driver (src/widget/bluetooth.rs)

Device addresses are embedded as naturals.  `connected_count` is a `usize`;
the `-= 1` in the source is modelled by truncated `Nat` subtraction (within
the well-formed event sequences of the invariant below the count is always
positive when decremented, so the models agree there). -/

/-- The Bluetooth widget's state (struct `Bluetooth`). -/
structure BtState where
  errorMessage : Option String
  powered : Option Bool
  discovering : Option Bool
  devicesConnected : List (Nat × Bool)
  connectedCount : Nat
deriving DecidableEq, Repr

def btInit : BtState :=
  { errorMessage := none, powered := none, discovering := none,
    devicesConnected := [], connectedCount := 0 }

/-- Events the Bluetooth task reacts to.  `deviceAdded` carries the result of
the `is_connected` query made when the device appears; `connectedChanged` is
the per-device `PropertyChanged(Connected(..))` stream event; `failure` is any
of the error paths that store an error message. -/
inductive BtEvent
  | deviceAdded (addr : Nat) (isConnected : Bool)
  | deviceRemoved (addr : Nat)
  | connectedChanged (addr : Nat) (connected : Bool)
  | poweredChanged (powered : Bool)
  | discoveringChanged (discovering : Bool)
  | failure (msg : String)
deriving DecidableEq, Repr

/-- One iteration of the adapter/device event handling in async fn `task`. -/
def btStep (s : BtState) : BtEvent → BtState
  | .deviceAdded addr isConnected =>
    { s with connectedCount := if isConnected then s.connectedCount + 1 else s.connectedCount,
             devicesConnected := ainsert s.devicesConnected addr isConnected }
  | .deviceRemoved addr =>
    { s with devicesConnected := aerase s.devicesConnected addr,
             connectedCount :=
               if alookup s.devicesConnected addr = some true then s.connectedCount - 1
               else s.connectedCount }
  | .connectedChanged addr connected =>
    let wasConnected := alookup s.devicesConnected addr
    let s' := { s with devicesConnected := ainsert s.devicesConnected addr connected }
    match wasConnected with
    | some was =>
      if was ≠ connected then
        if connected then { s' with connectedCount := s'.connectedCount + 1 }
        else { s' with connectedCount := s'.connectedCount - 1 }
      else s'
    | none => s'
  | .poweredChanged b => { s with powered := some b }
  | .discoveringChanged b => { s with discovering := some b }
  | .failure m => { s with errorMessage := some m }

def btRun (s : BtState) (evs : List BtEvent) : BtState := evs.foldl btStep s

/-- The number of tracked devices whose last-observed connected flag is true. -/
def countTrue : List (Nat × Bool) → Nat
  | [] => 0
  | (_, b) :: rest => (if b then 1 else 0) + countTrue rest

/-- Event preconditions under which the count bookkeeping is exact: a
device-added event concerns an address not currently tracked, and a
per-device connected event concerns a tracked address. -/
@[reducible]
def btOkEv (s : BtState) : BtEvent → Prop
  | .deviceAdded addr _ => alookup s.devicesConnected addr = none
  | .connectedChanged addr _ => (alookup s.devicesConnected addr).isSome
  | _ => True

/-- `btOkEv` holding along a whole event sequence. -/
def btWF : BtState → List BtEvent → Prop
  | _, [] => True
  | s, e :: rest => btOkEv s e ∧ btWF (btStep s e) rest

theorem countTrue_append (l l' : List (Nat × Bool)) :
    countTrue (l ++ l') = countTrue l + countTrue l' := by
  induction l with
  | nil => simp [countTrue]
  | cons p rest ih =>
    obtain ⟨k, v⟩ := p
    cases v <;> (simp [countTrue, ih]; try omega)

theorem countTrue_aerase (l : List (Nat × Bool)) (a : Nat) :
    countTrue (aerase l a) + (if alookup l a = some true then 1 else 0) = countTrue l := by
  induction l with
  | nil => simp [aerase, alookup, countTrue]
  | cons p rest ih =>
    obtain ⟨k, v⟩ := p
    by_cases hk : k = a
    · subst hk
      cases v <;> (simp [aerase, alookup, countTrue]; try omega)
    · cases v <;> simp [aerase, alookup, countTrue, hk] <;> omega

theorem countTrue_ainsert (l : List (Nat × Bool)) (a : Nat) (was v : Bool)
    (h : alookup l a = some was) :
    countTrue (ainsert l a v) + (if was then 1 else 0)
      = countTrue l + (if v then 1 else 0) := by
  induction l with
  | nil => simp [alookup] at h
  | cons p rest ih =>
    obtain ⟨k, w⟩ := p
    by_cases hk : k = a
    · subst hk
      have hw : w = was := by simpa [alookup] using h
      subst hw
      cases w <;> cases v <;> simp [ainsert, countTrue] <;> omega
    · simp only [alookup, if_neg hk] at h
      have hrest := ih h
      cases w <;> simp [ainsert, countTrue, hk] <;> omega

/-- Reduction of the connected-transition step when the device is tracked. -/
theorem btStep_connectedChanged_eq (s : BtState) (addr : Nat) (was connected : Bool)
    (hl : alookup s.devicesConnected addr = some was) :
    btStep s (.connectedChanged addr connected) =
      { s with devicesConnected := ainsert s.devicesConnected addr connected,
               connectedCount :=
                 if was = connected then s.connectedCount
                 else if connected then s.connectedCount + 1
                 else s.connectedCount - 1 } := by
  simp only [btStep, hl]
  by_cases hwc : was = connected
  · subst hwc
    simp
  · cases connected <;> simp [hwc, Ne.symm hwc]

/-- One well-formed step preserves the count invariant. -/
theorem btStep_invariant (s : BtState) (e : BtEvent) (hok : btOkEv s e)
    (hinv : s.connectedCount = countTrue s.devicesConnected) :
    (btStep s e).connectedCount = countTrue (btStep s e).devicesConnected := by
  cases e with
  | deviceAdded addr isConnected =>
    have hnone : alookup s.devicesConnected addr = none := hok
    have happ := ainsert_of_alookup_none s.devicesConnected addr isConnected hnone
    cases isConnected <;>
      simp [btStep, happ, countTrue_append, countTrue, hinv]
  | deviceRemoved addr =>
    have hc := countTrue_aerase s.devicesConnected addr
    cases hl : alookup s.devicesConnected addr with
    | none =>
      rw [hl] at hc
      simp at hc
      simp [btStep, hl, hinv, hc]
    | some was =>
      cases was
      · rw [hl] at hc
        simp at hc
        simp [btStep, hl, hinv, hc]
      · rw [hl] at hc
        simp at hc
        simp [btStep, hl, hinv]
        omega
  | connectedChanged addr connected =>
    have hsome : (alookup s.devicesConnected addr).isSome := hok
    cases hl : alookup s.devicesConnected addr with
    | none => rw [hl] at hsome; simp at hsome
    | some was =>
      have hins := countTrue_ainsert s.devicesConnected addr was connected hl
      rw [btStep_connectedChanged_eq s addr was connected hl]
      by_cases hwc : was = connected
      · subst hwc
        simp [alookup_ainsert_eq_self _ _ _ hl, hinv]
      · cases was <;> cases connected <;> (simp_all; try omega)
  | poweredChanged b => simpa [btStep] using hinv
  | discoveringChanged b => simpa [btStep] using hinv
  | failure m => simpa [btStep] using hinv

/-- Claim C7, counterexample: two identical `DeviceAdded` events for the same
connected device leave `connected_count` at 2 while only one tracked device
has a true flag — repeated events carrying the same flag are NOT no-ops, and
the count diverges from the number of connected tracked devices. -/
theorem bt_count_duplicate_added_false :
    (btRun btInit [.deviceAdded 0 true, .deviceAdded 0 true]).connectedCount = 2
    ∧ countTrue (btRun btInit [.deviceAdded 0 true,
        .deviceAdded 0 true]).devicesConnected = 1 := by
  decide

/-- Claim C7 (amended): provided every device-added event concerns an address
not currently tracked and every per-device connected event concerns a tracked
address, `connected_count` always equals the number of tracked devices whose
last-observed flag is true; a repeated connected event carrying the current
flag value changes nothing; and a device-removed event removes the device
from the tracked set regardless of its last known flag. -/
theorem bt_connected_count_invariant :
    (∀ (s : BtState) (evs : List BtEvent), btWF s evs →
      s.connectedCount = countTrue s.devicesConnected →
      (btRun s evs).connectedCount = countTrue (btRun s evs).devicesConnected)
    ∧ (∀ (s : BtState) (addr : Nat) (c : Bool),
        alookup s.devicesConnected addr = some c →
        btStep s (.connectedChanged addr c) = s)
    ∧ (∀ (s : BtState) (addr : Nat),
        (btStep s (.deviceRemoved addr)).devicesConnected
          = aerase s.devicesConnected addr) := by
  refine ⟨?_, ?_, ?_⟩
  · intro s evs
    induction evs generalizing s with
    | nil => exact fun _ h => h
    | cons e evs ih =>
      intro hwf hinv
      exact ih (btStep s e) hwf.2 (btStep_invariant s e hwf.1 hinv)
  · intro s addr c h
    have hins := alookup_ainsert_eq_self s.devicesConnected addr c h
    simp [btStep, h, hins]
  · intro s addr
    rfl

/-- Witness for `bt_connected_count_invariant` on a concrete well-formed
sequence with duplicate flags and a removal. -/
theorem bt_connected_count_invariant_witness :
    ((btRun btInit [.deviceAdded 0 true, .connectedChanged 0 false,
        .connectedChanged 0 false, .deviceAdded 1 true,
        .deviceRemoved 1]).connectedCount
      = countTrue (btRun btInit [.deviceAdded 0 true, .connectedChanged 0 false,
        .connectedChanged 0 false, .deviceAdded 1 true,
        .deviceRemoved 1]).devicesConnected)
    ∧ btStep (btStep btInit (.deviceAdded 0 true)) (.connectedChanged 0 true)
        = btStep btInit (.deviceAdded 0 true)
    ∧ (btStep (btStep btInit (.deviceAdded 0 true))
        (.deviceRemoved 0)).devicesConnected
        = aerase (btStep btInit (.deviceAdded 0 true)).devicesConnected 0 :=
  ⟨bt_connected_count_invariant.1 btInit
      [.deviceAdded 0 true, .connectedChanged 0 false, .connectedChanged 0 false,
       .deviceAdded 1 true, .deviceRemoved 1]
      (by refine ⟨?_, ?_, ?_, ?_, ?_, trivial⟩ <;> decide) rfl,
   bt_connected_count_invariant.2.1 (btStep btInit (.deviceAdded 0 true)) 0 true (by decide),
   bt_connected_count_invariant.2.2 (btStep btInit (.deviceAdded 0 true)) 0⟩

/-! ### Render functions (Render::render impls)

The rendered output is reduced to its textual skeleton: an error banner, a
single text child, or a row of text cells.  Material-Symbols glyph literals
are replaced by ASCII mnemonics; every branch of each source `render` is
mirrored.  Battery percentage and the displayed volume level are carried as
`Int` (the f64/f32 values only feed threshold comparisons and formatting; the
cube-root display scaling of the volume widget is not modelled, claims about
it would concern floating point only). -/

/-- Skeleton of a rendered widget. -/
inductive RenderOut
  | errorText (msg : String)
  | text (s : String)
  | row (cells : List String)
deriving DecidableEq, Repr

/-- The power widget's state (struct `Power`); time-to-empty/full are carried
in seconds. -/
structure Power where
  errorMessage : Option String
  type_ : Option Nat
  state : Option Nat
  percentage : Option Int
  timeToEmpty : Option Nat
  timeToFull : Option Nat
deriving DecidableEq, Repr

/-- Battery-glyph selection for the charging branch. -/
def batteryIconCharging (p : Int) : String :=
  if p ≥ 100 then "bat-charging-100"
  else if p ≥ 80 then "bat-charging-80"
  else if p ≥ 70 then "bat-charging-70"
  else if p ≥ 50 then "bat-charging-50"
  else if p ≥ 40 then "bat-charging-40"
  else if p ≥ 20 then "bat-charging-20"
  else if p ≥ 10 then "bat-charging-10"
  else "bat-charging-0"

/-- Battery-glyph selection for the discharging branch. -/
def batteryIconDischarging (p : Int) : String :=
  if p ≥ 100 then "bat-100"
  else if p ≥ 80 then "bat-80"
  else if p ≥ 70 then "bat-70"
  else if p ≥ 50 then "bat-50"
  else if p ≥ 40 then "bat-40"
  else if p ≥ 20 then "bat-20"
  else if p ≥ 10 then "bat-10"
  else "bat-0"

/-- `Render for Power`: battery display requires type 2 (battery) plus known
state and percentage; otherwise the literal placeholder. -/
def powerRender (w : Power) : RenderOut :=
  match w.errorMessage with
  | some e => .errorText e
  | none =>
    match w.type_, w.state, w.percentage with
    | some t, some st, some p =>
      if t = 2 then
        if st = 1 then .row [batteryIconCharging p, toString p]
        else if st = 2 then .row [batteryIconDischarging p, toString p]
        else if st = 3 then .row ["bat-empty", toString p]
        else if st = 4 then .row ["bat-full", toString p]
        else .text ("Other state: " ++ toString st)
      else .text "?"
    | _, _, _ => .text "?"

/-- `Render for HyprlandWorkspace`: the error banner is trimmed; otherwise one
cell per workspace in id order, the active or active-special one wrapped in
markers. -/
def hyprRender (s : HyprState) : RenderOut :=
  match s.errorMessage with
  | some e => .errorText e.trim
  | none =>
    .row (s.workspaces.map fun p =>
      if some p.1 = s.activeWorkspace ∨ some p.1 = s.activeSpecialWorkspace then
        " > " ++ String.mk p.2.name ++ " < "
      else String.mk p.2.name)

/-- The compile-time constant of src/widget/workspaces.rs. -/
def IGNORE_HIDDEN : Bool := true

/-- `Render for Workspaces`: hidden workspaces are filtered out only when
`IGNORE_HIDDEN` is false; the active one is wrapped in markers. -/
def extWsRender (w : WorkspacesWidget) : RenderOut :=
  match w.errorMessage with
  | some e => .errorText e.trim
  | none =>
    .row (w.workspaces.filterMap fun p =>
      if !IGNORE_HIDDEN && p.2.state.hidden then none
      else some (if p.2.state.active then " > " ++ p.2.name ++ " < " else p.2.name))

/-- `Render for Volume`: mute wins, then a known volume, else the
placeholder.  `lvl` stands for the displayed (cube-root-scaled) level. -/
def volumeRender (w : Volume) : RenderOut :=
  match w.errorMessage with
  | some e => .errorText e
  | none =>
    if w.mute = some true then .text "vol-muted"
    else
      match w.volume with
      | some lvl =>
        .row [if lvl ≤ 0 then "vol-min" else if lvl < 50 then "vol-mid" else "vol-max",
              toString lvl]
      | none => .text "?"

/-- `Render for Bluetooth`. -/
def bluetoothRender (s : BtState) : RenderOut :=
  match s.errorMessage with
  | some e => .errorText e
  | none =>
    match s.powered with
    | some true =>
      if s.discovering = some true then .text "bt-discovering"
      else if s.connectedCount = 0 then .text "bt-on"
      else .text "bt-connected"
    | some false => .text "bt-off"
    | none => .text "?"

/-- The power-profile widget's state (struct `PowerProfile`). -/
structure PowerProfile where
  errorMessage : Option String
  activeProfile : Option String
deriving DecidableEq, Repr

/-- `Render for PowerProfile`. -/
def powerProfileRender (s : PowerProfile) : RenderOut :=
  match s.errorMessage with
  | some e => .errorText e
  | none =>
    match s.activeProfile with
    | some profile =>
      if profile = "power-saver" then .text "profile-saver"
      else if profile = "balanced" then .text "profile-balanced"
      else if profile = "performance" then .text "profile-performance"
      else .text profile
    | none => .text "?"

/-- Claim C9: for every modelled widget, a stored error message is rendered
as the error banner, and with no error but a display-gating field still
unknown the literal placeholder string is rendered — never a blank widget. -/
theorem render_unknown_and_error_uniform :
    (∀ (w : Power) (e : String), w.errorMessage = some e → powerRender w = .errorText e)
  ∧ (∀ w : Power, w.errorMessage = none →
      (w.type_ = none ∨ w.state = none ∨ w.percentage = none) → powerRender w = .text "?")
  ∧ (∀ (s : HyprState) (e : String), s.errorMessage = some e →
      hyprRender s = .errorText e.trim)
  ∧ (∀ (w : WorkspacesWidget) (e : String), w.errorMessage = some e →
      extWsRender w = .errorText e.trim)
  ∧ (∀ (w : Volume) (e : String), w.errorMessage = some e → volumeRender w = .errorText e)
  ∧ (∀ w : Volume, w.errorMessage = none → w.mute ≠ some true → w.volume = none →
      volumeRender w = .text "?")
  ∧ (∀ (s : BtState) (e : String), s.errorMessage = some e →
      bluetoothRender s = .errorText e)
  ∧ (∀ s : BtState, s.errorMessage = none → s.powered = none →
      bluetoothRender s = .text "?")
  ∧ (∀ (s : PowerProfile) (e : String), s.errorMessage = some e →
      powerProfileRender s = .errorText e)
  ∧ (∀ s : PowerProfile, s.errorMessage = none → s.activeProfile = none →
      powerProfileRender s = .text "?") := by
  refine ⟨?_, ?_, ?_, ?_, ?_, ?_, ?_, ?_, ?_, ?_⟩
  · intro w e he
    simp [powerRender, he]
  · intro w he hmiss
    rcases htype : w.type_ with _ | t <;> rcases hstate : w.state with _ | st <;>
      rcases hperc : w.percentage with _ | p <;>
      simp_all [powerRender]
  · intro s e he
    simp [hyprRender, he]
  · intro w e he
    simp [extWsRender, he]
  · intro w e he
    simp [volumeRender, he]
  · intro w he hmute hvol
    simp [volumeRender, he, hmute, hvol]
  · intro s e he
    simp [bluetoothRender, he]
  · intro s he hpow
    simp [bluetoothRender, he, hpow]
  · intro s e he
    simp [powerProfileRender, he]
  · intro s he hprof
    simp [powerProfileRender, he, hprof]

/-- Witness for `render_unknown_and_error_uniform` at concrete states. -/
theorem render_unknown_and_error_uniform_witness :
    powerRender ⟨some "boom", none, none, none, none, none⟩ = .errorText "boom"
  ∧ powerRender ⟨none, some 2, some 1, none, none, none⟩ = .text "?"
  ∧ hyprRender { hyprInit with errorMessage := some " e " } = .errorText " e ".trim
  ∧ extWsRender ⟨some "err", []⟩ = .errorText "err".trim
  ∧ volumeRender ⟨some "err", none, none⟩ = .errorText "err"
  ∧ volumeRender ⟨none, some false, none⟩ = .text "?"
  ∧ bluetoothRender { btInit with errorMessage := some "err" } = .errorText "err"
  ∧ bluetoothRender btInit = .text "?"
  ∧ powerProfileRender ⟨some "err", none⟩ = .errorText "err"
  ∧ powerProfileRender ⟨none, none⟩ = .text "?" :=
  ⟨render_unknown_and_error_uniform.1 _ _ rfl,
   render_unknown_and_error_uniform.2.1 _ rfl (Or.inr (Or.inr rfl)),
   render_unknown_and_error_uniform.2.2.1 _ _ rfl,
   render_unknown_and_error_uniform.2.2.2.1 _ _ rfl,
   render_unknown_and_error_uniform.2.2.2.2.1 _ _ rfl,
   render_unknown_and_error_uniform.2.2.2.2.2.1 _ rfl (by decide) rfl,
   render_unknown_and_error_uniform.2.2.2.2.2.2.1 _ _ rfl,
   render_unknown_and_error_uniform.2.2.2.2.2.2.2.1 _ rfl rfl,
   render_unknown_and_error_uniform.2.2.2.2.2.2.2.2.1 _ _ rfl,
   render_unknown_and_error_uniform.2.2.2.2.2.2.2.2.2 _ rfl rfl⟩

/-! ### Error messages are never cleared -/

theorem hyprCreate_errorMessage (s : HyprState) (rest : List Char) :
    ((hyprCreate s rest).1).errorMessage = s.errorMessage := by
  cases h1 : splitOnce? rest with
  | none => simp [hyprCreate, h1]
  | some p =>
    obtain ⟨idStr, name⟩ := p
    cases h2 : parseI64 idStr with
    | none => simp [hyprCreate, h1, h2]
    | some id => simp [hyprCreate, h1, h2]

theorem hyprDestroy_errorMessage (s : HyprState) (rest : List Char) :
    ((hyprDestroy s rest).1).errorMessage = s.errorMessage := by
  cases h1 : splitOnce? rest with
  | none => simp [hyprDestroy, h1]
  | some p =>
    obtain ⟨idStr, name⟩ := p
    cases h2 : parseI64 idStr with
    | none => simp [hyprDestroy, h1, h2]
    | some id => simp [hyprDestroy, h1, h2]

theorem hyprActive_errorMessage (s : HyprState) (rest : List Char) :
    ((hyprActive s rest).1).errorMessage = s.errorMessage := by
  cases h1 : splitOnce? rest with
  | none => simp [hyprActive, h1]
  | some p =>
    obtain ⟨idStr, name⟩ := p
    by_cases h2 : idStr = []
    · simp [hyprActive, h1, h2]
    · cases h3 : parseI64 idStr with
      | none => simp [hyprActive, h1, h2, h3]
      | some id => simp [hyprActive, h1, h2, h3]

theorem hyprActiveSpecial_errorMessage (s : HyprState) (rest : List Char) :
    ((hyprActiveSpecial s rest).1).errorMessage = s.errorMessage := by
  cases h1 : splitOnce? rest with
  | none => simp [hyprActiveSpecial, h1]
  | some p =>
    obtain ⟨idStr, name⟩ := p
    by_cases h2 : idStr = []
    · simp [hyprActiveSpecial, h1, h2]
    · cases h3 : parseI64 idStr with
      | none => simp [hyprActiveSpecial, h1, h2, h3]
      | some id => simp [hyprActiveSpecial, h1, h2, h3]

/-- No line handler of the Hyprland event loop ever writes `error_message`. -/
theorem hyprLine_errorMessage (s : HyprState) (line : List Char) :
    ((hyprLine s line).1).errorMessage = s.errorMessage := by
  unfold hyprLine
  cases tagRest? createTag line with
  | some rest => exact hyprCreate_errorMessage s rest
  | none =>
    cases tagRest? destroyTag line with
    | some rest => exact hyprDestroy_errorMessage s rest
    | none =>
      cases tagRest? activeTag line with
      | some rest => exact hyprActive_errorMessage s rest
      | none =>
        cases tagRest? specialTag line with
        | some rest => exact hyprActiveSpecial_errorMessage s rest
        | none => rfl

/-- The widget-side fold of the generic compositor driver never clears the
error message: only the `Error` update touches it, writing `some`. -/
theorem wsWidgetStep_workspaceEvent_errorMessage (w : WorkspacesWidget) (h : Nat)
    (e : WsEvent) :
    (wsWidgetStep w (.workspaceEvent h e)).errorMessage = w.errorMessage := by
  cases hl : alookup w.workspaces h with
  | none => simp [wsWidgetStep, hl]
  | some ws =>
    cases e with
    | state raw =>
      cases hd : decodeState raw with
      | none => simp [wsWidgetStep, hl, hd]
      | some v => simp [wsWidgetStep, hl, hd]
    | capabilities raw =>
      cases hd : decodeCaps raw with
      | none => simp [wsWidgetStep, hl, hd]
      | some v => simp [wsWidgetStep, hl, hd]
    | _ => simp [wsWidgetStep, hl]

/-- Claim C10: in every modelled driver, a state-mutating step either leaves
`error_message` unchanged or overwrites it with another `some`; once it is
`some`, no later step resets it to `none` — even though the Hyprland loop and
the other folds keep mutating the remaining fields. -/
theorem error_message_monotone :
    (∀ (s : HyprState) (line : List Char) (m : String), s.errorMessage = some m →
      ∃ m', ((hyprLine s line).1).errorMessage = some m')
  ∧ (∀ (s : HyprState) (r : Except String (List (Int × WorkspaceInfo))) (m : String),
      s.errorMessage = some m → ∃ m', (applyRequery s r).errorMessage = some m')
  ∧ (∀ (w : WorkspacesWidget) (u : WsUpdate) (m : String), w.errorMessage = some m →
      ∃ m', (wsWidgetStep w u).errorMessage = some m')
  ∧ (∀ (w : Volume) (u : VolUpdate) (m : String), w.errorMessage = some m →
      ∃ m', (volWidgetStep w u).errorMessage = some m')
  ∧ (∀ (s : BtState) (e : BtEvent) (m : String), s.errorMessage = some m →
      ∃ m', (btStep s e).errorMessage = some m') := by
  refine ⟨?_, ?_, ?_, ?_, ?_⟩
  · intro s line m hm
    exact ⟨m, (hyprLine_errorMessage s line).trans hm⟩
  · intro s r m hm
    cases r with
    | ok ws => exact ⟨m, hm⟩
    | error e => exact ⟨e, rfl⟩
  · intro w u m hm
    cases u with
    | newWorkspace h ws => exact ⟨m, hm⟩
    | workspaceEvent h e =>
      exact ⟨m, (wsWidgetStep_workspaceEvent_errorMessage w h e).trans hm⟩
    | error msg => exact ⟨msg, rfl⟩
  · intro w u m hm
    cases u with
    | volume v => exact ⟨m, hm⟩
    | mute v => exact ⟨m, hm⟩
    | errorMessage e => exact ⟨e, rfl⟩
  · intro s e m hm
    cases e with
    | deviceAdded addr c => exact ⟨m, hm⟩
    | deviceRemoved addr => exact ⟨m, hm⟩
    | connectedChanged addr c =>
      refine ⟨m, ?_⟩
      cases hl : alookup s.devicesConnected addr with
      | none => simpa [btStep, hl] using hm
      | some was =>
        rw [btStep_connectedChanged_eq s addr was c hl]
        exact hm
    | poweredChanged b => exact ⟨m, hm⟩
    | discoveringChanged b => exact ⟨m, hm⟩
    | failure msg => exact ⟨msg, rfl⟩

/-- Witness for `error_message_monotone` at concrete errored states. -/
theorem error_message_monotone_witness :
    (∃ m', ((hyprLine { hyprInit with errorMessage := some "m" }
        "workspacev2>>3,x".toList).1).errorMessage = some m')
  ∧ (∃ m', (applyRequery { hyprInit with errorMessage := some "m" }
        (.ok [])).errorMessage = some m')
  ∧ (∃ m', (wsWidgetStep { initWorkspacesWidget with errorMessage := some "m" }
        (.workspaceEvent 0 .removed)).errorMessage = some m')
  ∧ (∃ m', (volWidgetStep { volumeInit with errorMessage := some "m" }
        (.volume (some 5))).errorMessage = some m')
  ∧ (∃ m', (btStep { btInit with errorMessage := some "m" }
        (.poweredChanged true)).errorMessage = some m') :=
  ⟨error_message_monotone.1 _ "workspacev2>>3,x".toList "m" rfl,
   error_message_monotone.2.1 _ (.ok []) "m" rfl,
   error_message_monotone.2.2.1 _ (.workspaceEvent 0 .removed) "m" rfl,
   error_message_monotone.2.2.2.1 _ (.volume (some 5)) "m" rfl,
   error_message_monotone.2.2.2.2 _ (.poweredChanged true) "m" rfl⟩

end EucalyptusTwig
